import Mathlib

/-!
# Verification of the bitbucket-github-migrator

A shallow embedding of the repository's Go code (main.go and the
github/bitbucket stage files) together with proofs about the claims of the
specification.

Modelling conventions:
- Go strings are `String` / `List Char`; machine integers carry no overflow in
  this program, so `Int` is used for ids and counters.
- Untyped JSON-like API payloads (`interface{}` / `map[string]interface{}`)
  are values of the inductive type `JValue`; Go maps become association lists.
- Calls to the two network backends and to the git transport are not executed:
  every stage function is parameterized by an environment `Env` of oracles
  giving the result of each call, and returns the list of calls it performed
  (an `Effect` trace) together with an outcome.  `log.Fatalf` is the outcome
  `Abort.fatal`, a failed Go type assertion is the outcome `Abort.panicked`.
- Fixed sleeps and wall-clock pacing are not modelled (no claim mentions
  them); the migration timestamp printed into PR bodies is the oracle
  `Env.now`.
-/

/-! ## Go string primitives -/

/-- Substring test on character lists: `listContainsSub hay needle` is `true`
iff `needle` occurs contiguously inside `hay`.  Models Go
`strings.Contains(hay, needle)`. -/
def listContainsSub (hay needle : List Char) : Bool :=
  match hay with
  | [] => needle.isEmpty
  | _ :: t => needle.isPrefixOf hay || listContainsSub t needle

/-- Go `strings.Contains` on strings. -/
def goContains (s sub : String) : Bool :=
  listContainsSub s.data sub.data

/-- The Latin-1 fragment of Go `unicode.IsSpace` (the program's inputs are
repository name lines; characters beyond Latin-1 classified as space by Go are
not modelled): space, tab, newline, vertical tab, form feed, carriage return,
next line, no-break space. -/
def goIsSpace (c : Char) : Bool :=
  c = ' ' || c = '\t' || c = '\n' || c = Char.ofNat 11 || c = Char.ofNat 12 ||
    c = '\r' || c = Char.ofNat 133 || c = Char.ofNat 160

/-- Go `strings.TrimSpace` on a character list: drop leading and trailing
whitespace. -/
def goTrimSpace (cs : List Char) : List Char :=
  ((cs.dropWhile goIsSpace).reverse.dropWhile goIsSpace).reverse

/-- Go `strings.Trim(s, "-")`: drop leading and trailing `'-'` characters. -/
def goTrimDash (cs : List Char) : List Char :=
  ((cs.dropWhile (fun c => c = '-')).reverse.dropWhile (fun c => c = '-')).reverse

/-! ## parseRepos (main.go)

`parseRepos` reads the repo file, splits it on newlines and cleans each line.
Each of the six `strings.ReplaceAll` calls has a single-character pattern and a
single-character replacement, so their composition is the character map
`replaceInvalidRepoChar`. -/

/-- The per-character substitution performed by the six `strings.ReplaceAll`
calls of `parseRepos`: the characters space, `/`, `+`, `&`, `(`, `)` become
`-`; everything else is untouched. -/
def replaceInvalidRepoChar (c : Char) : Char :=
  if c = ' ' || c = '/' || c = '+' || c = '&' || c = '(' || c = ')' then '-' else c

/-- The cleaning that `parseRepos` applies to one kept line: `TrimSpace`, the
six replacements, then `Trim(repo, "-")`. -/
def normalizeRepoLine (cs : List Char) : List Char :=
  goTrimDash ((goTrimSpace cs).map replaceInvalidRepoChar)

/-- The loop body of `parseRepos` over the lines of the repo file (the file
contents having been split on newlines): a line that is blank after
`TrimSpace`, or whose first character is `#`, is dropped; every other line is
kept in cleaned form. -/
def parseReposLines (lines : List (List Char)) : List (List Char) :=
  lines.filterMap (fun line =>
    let repo := goTrimSpace line
    if repo.isEmpty then none
    else if repo.head? = some '#' then none
    else some (goTrimDash (repo.map replaceInvalidRepoChar)))

/-- `parseRepos` on the contents of the repo file. -/
def parseRepos (data : String) : List String :=
  (parseReposLines ((data.splitOn "\n").map String.data)).map (fun cs => String.mk cs)

/-- Modelled from the spec: the destination platform's allowed
repository-name character set (alphanumerics, `-`, `_`, `.`).  The spec's
claim compares `parseRepos` output against this set; the source never defines
it, so it is written from the spec's words. -/
def specAllowedDestChar (c : Char) : Bool :=
  c.isAlphanum || c = '-' || c = '_' || c = '.'

/-- `cleanTopic` (github stage file): lower-case, then replace every space
with `-`.  Go `strings.ToLower` is modelled on its ASCII fragment
(`Char.toLower`). -/
def cleanTopic (input : String) : String :=
  String.mk ((input.data.map Char.toLower).map (fun c => if c = ' ' then '-' else c))

/-- Go `strings.ToLower`, modelled on its ASCII fragment. -/
def goToLower (s : String) : String :=
  String.mk (s.data.map Char.toLower)

/-! ## Untyped API payloads and the record adapter -/

/-- JSON-like values as delivered by the source API client
(`interface\x7b\x7d`); Go maps become association lists. -/
inductive JValue where
  | jstr (s : String)
  | jnum (n : Int)
  | jbool (b : Bool)
  | jobj (fields : List (String × JValue))
  | jarr (items : List JValue)
  | jnull

/-- Whether a payload is a mapping. -/
def JValue.isObj : JValue → Bool
  | .jobj _ => true
  | _ => false

/-- Go interface equality of a looked-up value against a string literal
(`m["type"] == "error"`): true exactly when the value is that string. -/
def JValue.isStrEq : Option JValue → String → Bool
  | some (.jstr s), t => s = t
  | _, _ => false

/-- The outcome of a Go function returning `(value, error)` that can also
panic (failed unchecked type assertion). -/
inductive GoRes (α : Type) where
  | ok (a : α)
  | err (msg : String)
  | panicked (msg : String)

/-- Whether a `GoRes` is a success. -/
def GoRes.isOk {α : Type} : GoRes α → Bool
  | .ok _ => true
  | _ => false

structure PRSummary where
  Raw : String := ""

structure PRMergeCommit where
  Hash : String := ""

/-- The typed pull-request record (`PullRequest` in the bitbucket stage file),
restricted to the fields the migration passes read.  `PrType` is the Go field
`Type` (a Lean keyword); the `created_on` timestamp is carried as its raw
string. -/
structure PullRequest where
  PrType : String := ""
  ID : Int := 0
  Title : String := ""
  Summary : PRSummary := {}
  State : String := ""
  Author : List (String × JValue) := []
  Source : List (String × JValue) := []
  ClosedBy : List (String × JValue) := []
  MergeCommit : PRMergeCommit := {}
  CreatedOn : String := ""
  Draft : Bool := false

/-- The `PullRequests` page struct; `decodePullRequests` fills only `Page`,
`Pagelen`, `Size` and `Values`. -/
structure PullRequests where
  Size : Int := 0
  Page : Int := 0
  Pagelen : Int := 0
  Next : String := ""
  Previous : String := ""
  Values : List PullRequest := []

/-- mapstructure decode of a string field: an absent or nil key keeps the zero
value, a string is taken as is, any other shape is a decode error. -/
def msString : Option JValue → Except String String
  | none => .ok ""
  | some .jnull => .ok ""
  | some (.jstr s) => .ok s
  | some _ => .error "mapstructure: expected type string"

/-- mapstructure decode of an int field (the backend sends whole numbers). -/
def msInt : Option JValue → Except String Int
  | none => .ok 0
  | some .jnull => .ok 0
  | some (.jnum n) => .ok n
  | some _ => .error "mapstructure: expected type int"

/-- mapstructure decode of a bool field. -/
def msBool : Option JValue → Except String Bool
  | none => .ok false
  | some .jnull => .ok false
  | some (.jbool b) => .ok b
  | some _ => .error "mapstructure: expected type bool"

/-- mapstructure decode of a `map[string]any` field: an absent or nil key is
the nil map. -/
def msMap : Option JValue → Except String (List (String × JValue))
  | none => .ok []
  | some .jnull => .ok []
  | some (.jobj fs) => .ok fs
  | some _ => .error "mapstructure: expected a map"

/-- mapstructure decode of the `summary` sub-struct. -/
def msSummary : Option JValue → Except String PRSummary
  | none => .ok {}
  | some .jnull => .ok {}
  | some (.jobj fs) =>
    match msString (fs.lookup "raw") with
    | .ok raw => .ok { Raw := raw }
    | .error e => .error e
  | some _ => .error "mapstructure: expected a map for summary"

/-- mapstructure decode of the `merge_commit` sub-struct. -/
def msMergeCommit : Option JValue → Except String PRMergeCommit
  | none => .ok {}
  | some .jnull => .ok {}
  | some (.jobj fs) =>
    match msString (fs.lookup "hash") with
    | .ok h => .ok { Hash := h }
    | .error e => .error e
  | some _ => .error "mapstructure: expected a map for merge_commit"

/-- The mapstructure decode of one pull-request mapping into `PullRequest`
(`decoder.Decode(prMap)` in `decodePullRequest`): every absent field keeps its
zero value, a field of the wrong shape is a decode error.  mapstructure's
case-insensitive key matching is modelled on the lower-case keys the backend
sends; struct fields not read by any migration pass are omitted. -/
def decodePRFields (prMap : List (String × JValue)) : Except String PullRequest := do
  let ty ← msString (prMap.lookup "type")
  let id ← msInt (prMap.lookup "id")
  let title ← msString (prMap.lookup "title")
  let summary ← msSummary (prMap.lookup "summary")
  let state ← msString (prMap.lookup "state")
  let author ← msMap (prMap.lookup "author")
  let source ← msMap (prMap.lookup "source")
  let closedBy ← msMap (prMap.lookup "closed_by")
  let mergeCommit ← msMergeCommit (prMap.lookup "merge_commit")
  let createdOn ← msString (prMap.lookup "created_on")
  let draft ← msBool (prMap.lookup "draft")
  return { PrType := ty, ID := id, Title := title, Summary := summary, State := state,
           Author := author, Source := source, ClosedBy := closedBy,
           MergeCommit := mergeCommit, CreatedOn := createdOn, Draft := draft }

/-- `DecodeError`: decode the `error` member into a `bitbucket.BitbucketError`
and surface its message.  The result is the text of the error that
`DecodeError` returns: the embedded message on success (mapstructure leaves
the zero value for an absent or nil input, hence the empty message there), or
the mapstructure failure text when the member has the wrong shape. -/
def DecodeError (prMap : List (String × JValue)) : String :=
  match prMap.lookup "error" with
  | none => ""
  | some .jnull => ""
  | some (.jobj efs) =>
    match msString (efs.lookup "message") with
    | .ok m => m
    | .error em => em
  | some _ => "mapstructure: expected a map"

/-- `decodePullRequest`: the unchecked assertion
`response.(map[string]interface\x7b\x7d)` panics on a non-mapping entry; an
error-shaped entry (`type == "error"`) becomes the error built by
`DecodeError`; any other entry is decoded by mapstructure. -/
def decodePullRequest (response : JValue) : GoRes PullRequest :=
  match response with
  | .jobj prMap =>
    if JValue.isStrEq (prMap.lookup "type") "error" then
      .err (DecodeError prMap)
    else
      match decodePRFields prMap with
      | .ok pr => .ok pr
      | .error e => .err e
  | _ => .panicked "interface conversion: interface is not a map"

/-- The entry loop of `decodePullRequests`: decode entries left to right and
stop at the first failure. -/
def decodePRList : List JValue → GoRes (List PullRequest)
  | [] => .ok []
  | entry :: rest =>
    match decodePullRequest entry with
    | .ok pr =>
      match decodePRList rest with
      | .ok prs => .ok (pr :: prs)
      | .err m => .err m
      | .panicked m => .panicked m
    | .err m => .err m
    | .panicked m => .panicked m

/-- The checked assertion `m["page"].(float64)` with its `ok` fallback to 0. -/
def msNumOrZero : Option JValue → Int
  | some (.jnum n) => n
  | _ => 0

/-- `decodePullRequests`: a non-mapping response is the error
`"not a valid format"`; the `values` member is read by an unchecked assertion
to a slice (a panic when absent or of another shape); then the entries are
decoded and the page counters are filled with checked assertions. -/
def decodePullRequests (prsResponse : JValue) : GoRes PullRequests :=
  match prsResponse with
  | .jobj prResponseMap =>
    match prResponseMap.lookup "values" with
    | some (.jarr prArray) =>
      match decodePRList prArray with
      | .ok prs =>
        .ok { Page := msNumOrZero (prResponseMap.lookup "page"),
              Pagelen := msNumOrZero (prResponseMap.lookup "pagelen"),
              Size := msNumOrZero (prResponseMap.lookup "size"),
              Values := prs }
      | .err m => .err m
      | .panicked m => .panicked m
    | _ => .panicked "interface conversion: interface is not a slice"
  | _ => .err "not a valid format"

/-! ## Repository data and configuration -/

structure BbBranch where
  Name : String := ""

structure BbProject where
  Name : String := ""

/-- The fields of `bitbucket.Repository` read by the migrator. -/
structure BbRepository where
  Slug : String := ""
  Is_private : Bool := false
  Description : String := ""
  Mainbranch : BbBranch := {}
  Language : String := ""
  Project : BbProject := {}

/-- The `github.Repository` descriptor as built by `createRepo` (pointer
fields flattened to values). -/
structure GhRepo where
  Name : String := ""
  Visibility : String := ""
  Description : String := ""
  DefaultBranch : String := ""
  Language : String := ""
  OrganizationName : String := ""
  Topics : List String := []

/-- `github.NewPullRequest` as built by `migrateOpenPrs`. -/
structure NewPullRequest where
  Title : String := ""
  Body : String := ""
  Head : String := ""
  Base : String := ""
  Draft : Bool := false

/-- `github.IssueRequest` as built by `createClosedPrs`. -/
structure IssueRequest where
  Title : String := ""
  Body : String := ""
  Labels : List String := []
  State : String := ""

/-- The `settings` struct of main.go. -/
structure Settings where
  bbWorkspace : String := ""
  bbUsername : String := ""
  bbPassword : String := ""
  revokeOldPerms : Bool := false
  cloneVia : String := ""
  ghOrg : String := ""
  ghUser : String := ""
  ghOwner : String := ""
  ghToken : String := ""
  dryRun : Bool := false
  overwrite : Bool := false
  visibility : String := ""
  runProgram : String := ""
  repoFile : String := ""
  migrateRepoContents : Bool := false
  migrateRepoSettings : Bool := false
  migrateOpenPrs : Bool := false
  migrateClosedPrs : Bool := false

/-! ## Effects, aborts and the call environment -/

/-- One call to an external collaborator: a bitbucket read or write, a github
read or write, or a git transport invocation. -/
inductive Effect where
  | bbGetRepo (owner repoName : String)
  | bbListUserPerms (repoName : String)
  | bbListGroupPerms (repoName : String)
  | bbSetUserPerm (repoName user : String)
  | bbSetGroupPerm (repoName group : String)
  | bbGetPrs (owner repoName branch : String)
  | gitClone (url : String)
  | gitRemoteAdd (repoName : String)
  | runProg (program folder : String)
  | gitPush (repoName : String)
  | ghCreateRepo (slug : String)
  | ghGetRepo (owner slug : String)
  | ghEditRepo (name : String)
  | ghReplaceTopics (name : String)
  | ghCreateCustomProps (org name : String)
  | ghCreatePR (prID : Int)
  | ghCreateIssue (prID : Int)
  | ghCreateCommitComment (hash : String)
  | ghEditIssue (issueNumber : Int)

/-- A mutating call creates or changes state on the bitbucket backend, the
github backend, or the destination git remote; clones, list/get reads, the
local `git remote add` and the local post-clone program are not mutating. -/
def Effect.isMutating : Effect → Bool
  | .bbGetRepo _ _ => false
  | .bbListUserPerms _ => false
  | .bbListGroupPerms _ => false
  | .bbSetUserPerm _ _ => true
  | .bbSetGroupPerm _ _ => true
  | .bbGetPrs _ _ _ => false
  | .gitClone _ => false
  | .gitRemoteAdd _ => false
  | .runProg _ _ => false
  | .gitPush _ => true
  | .ghCreateRepo _ => true
  | .ghGetRepo _ _ => false
  | .ghEditRepo _ => true
  | .ghReplaceTopics _ => true
  | .ghCreateCustomProps _ _ => true
  | .ghCreatePR _ => true
  | .ghCreateIssue _ => true
  | .ghCreateCommitComment _ => true
  | .ghEditIssue _ => true

/-- Program-stopping outcomes: `fatal` is `log.Fatalf` (which exits the whole
process), `panicked` a Go runtime panic. -/
inductive Abort where
  | fatal (msg : String)
  | panicked (msg : String)

/-- The result of a stage: the trace of performed external calls together
with a value or an abort. -/
abbrev StageRes (α : Type) := List Effect × Except Abort α

/-- Stage sequencing: traces accumulate; a fatal error or panic stops the
program. -/
def seqE {α β : Type} (x : StageRes α) (f : α → StageRes β) : StageRes β :=
  match x with
  | (t, .error a) => (t, .error a)
  | (t, .ok v) => (t ++ (f v).1, (f v).2)

/-- Oracles giving the result of every external call the program can make.
Each oracle is keyed by the data identifying the request (repository name,
pull-request id, poll attempt).  The defaults describe a run where every call
succeeds. -/
structure Env where
  bbRepo : String → BbRepository := fun _ => {}
  bbGetRepoErr : String → Option String := fun _ => none
  listUserPermsErr : String → Option String := fun _ => none
  listGroupPermsErr : String → Option String := fun _ => none
  userPermAccounts : String → List String := fun _ => []
  groupSlugs : String → List String := fun _ => []
  setUserPermErr : String → String → Option String := fun _ _ => none
  setGroupPermErr : String → String → Option String := fun _ _ => none
  cloneErr : String → Option String := fun _ => none
  cloneFolder : String → String := fun _ => ""
  prsGetsErr : String → Option String := fun _ => none
  prsResponse : String → JValue := fun _ => JValue.jobj [("values", JValue.jarr [])]
  ghCreateErr : String → Option String := fun _ => none
  ghGetOk : String → Nat → Bool := fun _ _ => true
  remoteAddErr : String → Option String := fun _ => none
  runProgErr : String → Option String := fun _ => none
  gitPushErr : String → Option String := fun _ => none
  editRepoErr : String → Option String := fun _ => none
  replaceTopicsErr : String → Option String := fun _ => none
  customPropsErr : String → Option String := fun _ => none
  prCreateResult : Int → Except String Int := fun _ => Except.ok 1
  issueCreateResult : Int → Except String Int := fun _ => Except.ok 1
  commitCommentErr : Int → Option String := fun _ => none
  issueEditErr : Int → Option String := fun _ => none
  now : String := ""

/-- The all-defaults environment: every call succeeds, the PR list response
is an empty page. -/
def defEnv : Env := {}

/-! ## Bitbucket-side stages -/

/-- `getRepo`: fetch the source repository snapshot; a failure is fatal. -/
def getRepo (env : Env) (owner repoName : String) : StageRes BbRepository :=
  ([Effect.bbGetRepo owner repoName],
   match env.bbGetRepoErr repoName with
   | some e => .error (.fatal ("Failed to get repo from bitbucket: " ++ e))
   | none => .ok (env.bbRepo repoName))

/-- `cloneRepo`: mirror-clone to a temp folder over ssh or https. -/
def cloneRepo (env : Env) (repo : String) (config : Settings) : StageRes String :=
  let cloneURL :=
    if goToLower config.cloneVia = "ssh" then
      "git@bitbucket.org:" ++ config.bbWorkspace ++ "/" ++ repo ++ ".git"
    else
      "https://bitbucket.org/" ++ config.bbWorkspace ++ "/" ++ repo ++ ".git"
  ([Effect.gitClone cloneURL],
   match env.cloneErr repo with
   | some e => .error (.fatal ("Failed to clone repository: " ++ e))
   | none => .ok (env.cloneFolder repo))

/-- The user-permission loop of `updatePermissionsToReadOnly` (the oracle is
keyed by the account id; the Go error text uses the username, collapsed here
to the same key). -/
def setUserPermsLoop (env : Env) (repoName : String) : List String → StageRes Unit
  | [] => ([], .ok ())
  | acct :: rest =>
    match env.setUserPermErr repoName acct with
    | some e =>
      ([Effect.bbSetUserPerm repoName acct],
       .error (.fatal ("Failed to update user permission for " ++ acct ++ ": " ++ e)))
    | none =>
      let r := setUserPermsLoop env repoName rest
      (Effect.bbSetUserPerm repoName acct :: r.1, r.2)

/-- The group-permission loop of `updatePermissionsToReadOnly`. -/
def setGroupPermsLoop (env : Env) (repoName : String) : List String → StageRes Unit
  | [] => ([], .ok ())
  | grp :: rest =>
    match env.setGroupPermErr repoName grp with
    | some e =>
      ([Effect.bbSetGroupPerm repoName grp],
       .error (.fatal ("Failed to update group permission for " ++ grp ++ ": " ++ e)))
    | none =>
      let r := setGroupPermsLoop env repoName rest
      (Effect.bbSetGroupPerm repoName grp :: r.1, r.2)

/-- `updatePermissionsToReadOnly`: list user and group permissions (reads),
then — unless this is a dry run — set each of them to read-only. -/
def updatePermissionsToReadOnly (env : Env) (owner repoName : String) (dryRun : Bool) :
    StageRes Unit :=
  seqE ([Effect.bbListUserPerms repoName],
        match env.listUserPermsErr repoName with
        | some e => .error (.fatal ("Failed to get user permissions: " ++ e))
        | none => .ok (env.userPermAccounts repoName)) fun userPerms =>
  seqE ([Effect.bbListGroupPerms repoName],
        match env.listGroupPermsErr repoName with
        | some e => .error (.fatal ("Failed to get group permissions: " ++ e))
        | none => .ok (env.groupSlugs repoName)) fun groupPerms =>
  if dryRun then ([], .ok ())
  else
    seqE (setUserPermsLoop env repoName userPerms) fun _ =>
    setGroupPermsLoop env repoName groupPerms

instance : DecidableRel (fun (i j : PullRequest) => i.ID ≤ j.ID) :=
  fun i j => inferInstanceAs (Decidable (i.ID ≤ j.ID))

instance : IsTotal PullRequest (fun i j => i.ID ≤ j.ID) :=
  ⟨fun a b => Int.le_total a.ID b.ID⟩

instance : IsTrans PullRequest (fun i j => i.ID ≤ j.ID) :=
  ⟨fun _ _ _ h1 h2 => le_trans h1 h2⟩

/-- The `slices.SortFunc(prs.Values, cmp.Compare on ID)` step of `getPrs`,
embedded as a sort by ascending id (the library sort is observed only through
the order of its output). -/
def sortPrsByID (l : List PullRequest) : List PullRequest :=
  List.insertionSort (fun i j => i.ID ≤ j.ID) l

/-- `getPrs`: list the source pull requests, decode them, and sort the records
by ascending id; a transport or decode failure is fatal. -/
def getPrs (env : Env) (owner repo destinationBranch : String) : StageRes PullRequests :=
  ([Effect.bbGetPrs owner repo destinationBranch],
   match env.prsGetsErr repo with
   | some e => .error (.fatal ("Failed to get PRs: " ++ e))
   | none =>
     match decodePullRequests (env.prsResponse repo) with
     | .err e => .error (.fatal ("Error decoding PRs: " ++ e))
     | .panicked p => .error (.panicked p)
     | .ok prs => .ok { prs with Values := sortPrsByID prs.Values })

/-! ## Github-side stages -/

/-- The destination repository descriptor built at the top of `createRepo`. -/
def buildGhRepo (repo : BbRepository) (config : Settings) : GhRepo :=
  { Name := repo.Slug,
    Visibility := if repo.Is_private then config.visibility else "public",
    Description := repo.Description,
    DefaultBranch := repo.Mainbranch.Name,
    Language := repo.Language,
    OrganizationName := config.ghOrg,
    Topics := ["migratedFromBitbucket", cleanTopic repo.Project.Name] }

/-- The bounded availability poll of `createRepo` (20 attempts; the oracle is
keyed by the attempt index). -/
def createRepoPoll (env : Env) (owner slug : String) (ghRepo : GhRepo) :
    Nat → Nat → StageRes GhRepo
  | 0, _ => ([], .error (.fatal "Repo has still not been created"))
  | fuel + 1, i =>
    if env.ghGetOk slug i then ([Effect.ghGetRepo owner slug], .ok ghRepo)
    else
      let r := createRepoPoll env owner slug ghRepo fuel (i + 1)
      (Effect.ghGetRepo owner slug :: r.1, r.2)

/-- `createRepo`: build the descriptor; in a dry run return it with no
network effect; otherwise create the repository (an already-exists failure is
fatal unless overwrite is enabled, any other failure is fatal) and poll until
the repository is readable. -/
def createRepo (env : Env) (repo : BbRepository) (config : Settings) : StageRes GhRepo :=
  let ghRepo := buildGhRepo repo config
  if config.dryRun then ([], .ok ghRepo)
  else
    seqE ([Effect.ghCreateRepo repo.Slug],
          match env.ghCreateErr repo.Slug with
          | none => .ok ()
          | some e =>
            if goContains e "name already exists on this account" then
              if !config.overwrite then
                .error (.fatal ("Refusing to overwrite Github repo " ++ repo.Slug))
              else .ok ()
            else
              .error (.fatal ("failed to create repo " ++ repo.Slug ++ ", error: " ++ e)))
      fun _ => createRepoPoll env config.ghOwner repo.Slug ghRepo 20 0

/-- `updateRepoTopics`: replace all topics; dry run short-circuits. -/
def updateRepoTopics (env : Env) (githubOwner : String) (ghRepo : GhRepo) (dryRun : Bool) :
    StageRes Unit :=
  if dryRun then ([], .ok ())
  else
    ([Effect.ghReplaceTopics ghRepo.Name],
     match env.replaceTopicsErr ghRepo.Name with
     | some e =>
       .error (.fatal ("failed to update topics for repo " ++ ghRepo.Name ++ ", error: " ++ e))
     | none => .ok ())

/-- `updateCustomProperties`: a no-op without an organization; otherwise set
the two custom properties.  The call's error result is received as `callErr`
and discarded, exactly as the Go call's return values are. -/
def updateCustomProperties (callErr : Option String) (githubOrg : String) (ghRepo : GhRepo)
    (dryRun : Bool) (projectName : String) : StageRes Unit :=
  if githubOrg = "" then ([], .ok ())
  else
    let _customProps := [("bitbucket", "true"), ("project", cleanTopic projectName)]
    if dryRun then ([], .ok ())
    else ([Effect.ghCreateCustomProps githubOrg ghRepo.Name], .ok ())

/-- `updateRepo`: edit the repository (default branch); dry run
short-circuits. -/
def updateRepo (env : Env) (githubOwner : String) (ghRepo : GhRepo) (dryRun : Bool) :
    StageRes Unit :=
  if dryRun then ([], .ok ())
  else
    ([Effect.ghEditRepo ghRepo.Name],
     match env.editRepoErr ghRepo.Name with
     | some e => .error (.fatal ("failed to update repo " ++ ghRepo.Name ++ ", error: " ++ e))
     | none => .ok ())

/-- One pass of Go `strings.ReplaceAll` with a non-empty pattern on character
lists, driven by a fuel argument that the wrapper sets to the list length
(each step consumes at least one character, so the fuel never runs out for
the program's fixed non-empty patterns). -/
def replaceAllFuel (pat rep : List Char) : Nat → List Char → List Char
  | 0, s => s
  | _, [] => []
  | fuel + 1, c :: t =>
    if pat.isPrefixOf (c :: t) && !pat.isEmpty then
      rep ++ replaceAllFuel pat rep fuel (t.drop (pat.length - 1))
    else
      c :: replaceAllFuel pat rep fuel t

/-- Go `strings.ReplaceAll` for the multi-character patterns of
`cleanBitbucketPRSummary`. -/
def goReplaceAll (s pat rep : String) : String :=
  String.mk (replaceAllFuel pat.data rep.data s.data.length s.data)

/-- `cleanBitbucketPRSummary`: strip the inline-card markup artifact and the
zero-width non-joiner. -/
def cleanBitbucketPRSummary (prSummary : String) : String :=
  goReplaceAll (goReplaceAll prSummary "\x7b: data-inline-card=\x27\x27 \x7d" "") "\u200C" ""

/-- An unchecked Go assertion `v.(string)` on a looked-up map value. -/
def goAssertString (v : Option JValue) : Except Abort String :=
  match v with
  | some (.jstr s) => .ok s
  | _ => .error (.panicked "interface conversion: interface is not string")

/-- An unchecked Go assertion `v.(map[string]any)` on a looked-up map value. -/
def goAssertObj (v : Option JValue) : Except Abort (List (String × JValue)) :=
  match v with
  | some (.jobj fs) => .ok fs
  | _ => .error (.panicked "interface conversion: interface is not a map")

/-- The skip classification of a PR-creation failure in `migrateOpenPrs`: the
pull request already exists, or the validation signature showing the source
branch no longer exists. -/
def prCreateSkippable (e : String) : Bool :=
  goContains e "A pull request already exists" ||
    goContains e "422 Validation Failed [\x7bResource:PullRequest Field:head Code:invalid Message:\x7d]"

/-- The loop of `migrateOpenPrs` over the record sequence: skip non-OPEN
records; read author and branch with unchecked assertions; build the new PR
request; in a dry run return (ending the whole pass); otherwise create the
destination PR, continuing on a skippable failure and aborting on any other
failure. -/
def migrateOpenPrsLoop (env : Env) (githubOwner : String) (ghRepo : GhRepo) (dryRun : Bool) :
    List PullRequest → StageRes Unit
  | [] => ([], .ok ())
  | pr :: rest =>
    if pr.State ≠ "OPEN" then
      migrateOpenPrsLoop env githubOwner ghRepo dryRun rest
    else
      let prID := toString pr.ID
      let prSummary := cleanBitbucketPRSummary pr.Summary.Raw
      match goAssertString (pr.Author.lookup "display_name") with
      | .error a => ([], .error a)
      | .ok authorName =>
        let text := "PR originally created by " ++ authorName ++ " on " ++ pr.CreatedOn ++
          ". Migrated from bitbucket on " ++ env.now ++ "\n\n---\n" ++ prSummary
        let title := "Historical Bitbucket PR #" ++ prID ++ ": " ++ pr.Title
        match goAssertObj (pr.Source.lookup "branch") with
        | .error a => ([], .error a)
        | .ok branchMap =>
          match goAssertString (branchMap.lookup "name") with
          | .error a => ([], .error a)
          | .ok branch =>
            let _ghPr : NewPullRequest :=
              { Title := title, Body := text, Head := branch,
                Base := ghRepo.DefaultBranch, Draft := pr.Draft }
            if dryRun then ([], .ok ())
            else
              match env.prCreateResult pr.ID with
              | .ok _newPrNumber =>
                let r := migrateOpenPrsLoop env githubOwner ghRepo dryRun rest
                (Effect.ghCreatePR pr.ID :: r.1, r.2)
              | .error e =>
                if goContains e "A pull request already exists" then
                  let r := migrateOpenPrsLoop env githubOwner ghRepo dryRun rest
                  (Effect.ghCreatePR pr.ID :: r.1, r.2)
                else if goContains e "422 Validation Failed [\x7bResource:PullRequest Field:head Code:invalid Message:\x7d]" then
                  let r := migrateOpenPrsLoop env githubOwner ghRepo dryRun rest
                  (Effect.ghCreatePR pr.ID :: r.1, r.2)
                else
                  ([Effect.ghCreatePR pr.ID],
                   .error (.fatal ("failed to create PR " ++ prID ++ ", error: " ++ e)))

/-- `migrateOpenPrs` over a decoded record page. -/
def migrateOpenPrs (env : Env) (githubOwner : String) (ghRepo : GhRepo) (prs : PullRequests)
    (dryRun : Bool) : StageRes Unit :=
  migrateOpenPrsLoop env githubOwner ghRepo dryRun prs.Values

/-- The loop of `createClosedPrs` over the record sequence: skip non-MERGED
records; read author, branch and merger with unchecked assertions; build the
issue request; in a dry run return (ending the whole pass); otherwise create
the issue, comment on the merge commit and close the issue, any failure being
fatal. -/
def createClosedPrsLoop (env : Env) (githubOwner : String) (ghRepo : GhRepo) (dryRun : Bool) :
    List PullRequest → StageRes Unit
  | [] => ([], .ok ())
  | pr :: rest =>
    if pr.State ≠ "MERGED" then
      createClosedPrsLoop env githubOwner ghRepo dryRun rest
    else
      match goAssertString (pr.Author.lookup "display_name") with
      | .error a => ([], .error a)
      | .ok author =>
        let prSummary := cleanBitbucketPRSummary pr.Summary.Raw
        match goAssertObj (pr.Source.lookup "branch") with
        | .error a => ([], .error a)
        | .ok branchMap =>
          match goAssertString (branchMap.lookup "name") with
          | .error a => ([], .error a)
          | .ok branch =>
            match goAssertString (pr.ClosedBy.lookup "display_name") with
            | .error a => ([], .error a)
            | .ok mergedBy =>
              let creationTime := pr.CreatedOn
              let title := "Historical Bitbucket PR #" ++ toString pr.ID ++ ": " ++ pr.Title
              let text := "**Bitbucket PR created from branch " ++ branch ++ " on " ++
                creationTime ++ " by " ++ author ++ ". Merged by " ++ mergedBy ++
                "**\n\n---\n" ++ prSummary
              let _issue : IssueRequest :=
                { Title := title, Body := text, Labels := ["bitbucketPR"], State := "closed" }
              if dryRun then ([], .ok ())
              else
                match env.issueCreateResult pr.ID with
                | .error e =>
                  ([Effect.ghCreateIssue pr.ID],
                   .error (.fatal ("failed to create issue for PR " ++ toString pr.ID ++
                     ", error: " ++ e)))
                | .ok issueNumber =>
                  let commitHash := pr.MergeCommit.Hash
                  match env.commitCommentErr pr.ID with
                  | some e =>
                    ([Effect.ghCreateIssue pr.ID, Effect.ghCreateCommitComment commitHash],
                     .error (.fatal ("failed to comment on commit " ++ commitHash ++ ": " ++ e)))
                  | none =>
                    match env.issueEditErr pr.ID with
                    | some e =>
                      ([Effect.ghCreateIssue pr.ID, Effect.ghCreateCommitComment commitHash,
                        Effect.ghEditIssue issueNumber],
                       .error (.fatal ("failed to close issue: " ++ e)))
                    | none =>
                      let r := createClosedPrsLoop env githubOwner ghRepo dryRun rest
                      (Effect.ghCreateIssue pr.ID :: Effect.ghCreateCommitComment commitHash ::
                        Effect.ghEditIssue issueNumber :: r.1, r.2)

/-- `createClosedPrs` over a decoded record page. -/
def createClosedPrs (env : Env) (githubOwner : String) (ghRepo : GhRepo) (prs : PullRequests)
    (dryRun : Bool) : StageRes Unit :=
  createClosedPrsLoop env githubOwner ghRepo dryRun prs.Values

/-- `pushRepoToGithub`: add the new remote (local), run the optional
post-clone program (the `runProgram` helper inlined: a no-op when the
configured program is `"noop"`), then — unless this is a dry run — push all
refs to the destination. -/
def pushRepoToGithub (env : Env) (repoFolder repoName : String) (config : Settings) :
    StageRes Unit :=
  seqE ([Effect.gitRemoteAdd repoName],
        match env.remoteAddErr repoName with
        | some e => .error (.fatal ("Failed to add new git origin: " ++ e))
        | none => .ok ()) fun _ =>
  seqE (if config.runProgram ≠ "noop" then
          ([Effect.runProg config.runProgram repoFolder],
           match env.runProgErr repoFolder with
           | some e =>
             .error (.fatal ("Failed to run custom program " ++ config.runProgram ++
               ". err: " ++ e))
           | none => .ok ())
        else ([], .ok ())) fun _ =>
  if config.dryRun then ([], .ok ())
  else
    ([Effect.gitPush repoName],
     match env.gitPushErr repoName with
     | some e => .error (.fatal ("Failed to push: " ++ e))
     | none => .ok ())

/-! ## The per-repository pipeline (main.go) -/

/-- `migrateRepo`: the strictly sequential per-repository pipeline of main.go,
each optional stage gated by its configuration toggle. -/
def migrateRepo (env : Env) (repoName : String) (config : Settings) : StageRes Unit :=
  seqE (getRepo env config.bbWorkspace repoName) fun bbRepo =>
  seqE (if config.revokeOldPerms then
          updatePermissionsToReadOnly env config.bbWorkspace repoName config.dryRun
        else ([], .ok ())) fun _ =>
  seqE (if config.migrateRepoContents then cloneRepo env repoName config
        else ([], .ok "")) fun repoFolder =>
  seqE (if config.migrateOpenPrs || config.migrateClosedPrs then
          getPrs env config.bbWorkspace repoName bbRepo.Mainbranch.Name
        else ([], .ok {})) fun prs =>
  seqE (createRepo env bbRepo config) fun ghRepo =>
  seqE (if config.migrateRepoContents then pushRepoToGithub env repoFolder repoName config
        else ([], .ok ())) fun _ =>
  seqE (if config.migrateRepoSettings then
          seqE (updateRepo env config.ghOwner ghRepo config.dryRun) fun _ =>
          seqE (updateRepoTopics env config.ghOwner ghRepo config.dryRun) fun _ =>
          updateCustomProperties (env.customPropsErr repoName) config.ghOwner ghRepo
            config.dryRun bbRepo.Project.Name
        else ([], .ok ())) fun _ =>
  seqE (if config.migrateOpenPrs then
          migrateOpenPrs env config.ghOwner ghRepo prs config.dryRun
        else ([], .ok ())) fun _ =>
  (if config.migrateClosedPrs then
     createClosedPrs env config.ghOwner ghRepo prs config.dryRun
   else ([], .ok ()))

/-- `migrateRepos`: run the pipeline over every repository of the parsed list
(a fatal abort anywhere stops the whole program). -/
def migrateRepos (env : Env) (repoList : List String) (config : Settings) : StageRes Unit :=
  match repoList with
  | [] => ([], .ok ())
  | repo :: rest =>
    seqE (migrateRepo env repo config) fun _ => migrateRepos env rest config

/-! ## Concrete environments and records used in the theorems below -/

/-- An environment whose PR-creation calls all fail with the
already-exists message. -/
def envSkip : Env :=
  { prCreateResult := fun _ => Except.error "A pull request already exists" }

/-- A pull-request entry whose author mapping lacks the `display_name` key
(the author only has a `nickname`). -/
def prEntryC3 : JValue :=
  JValue.jobj
    [("type", JValue.jstr "pullrequest"), ("id", JValue.jnum 7),
     ("title", JValue.jstr "t"), ("state", JValue.jstr "OPEN"),
     ("author", JValue.jobj [("nickname", JValue.jstr "bob")]),
     ("source", JValue.jobj [("branch", JValue.jobj [("name", JValue.jstr "feat")])])]

/-- The record `prEntryC3` decodes to. -/
def prRecC3 : PullRequest :=
  { PrType := "pullrequest", ID := 7, Title := "t", State := "OPEN",
    Author := [("nickname", JValue.jstr "bob")],
    Source := [("branch", JValue.jobj [("name", JValue.jstr "feat")])] }

/-! ### List trimming lemmas -/

theorem dropWhile_eq_self_of_head {p : Char → Bool} {l : List Char}
    (h : ∀ c ∈ l.head?, p c = false) : l.dropWhile p = l := by
  cases l with
  | nil => rfl
  | cons a t =>
    have ha : p a = false := h a (by simp)
    simp [List.dropWhile_cons, ha]

theorem head_dropWhile_false (p : Char → Bool) (l : List Char) :
    ∀ c ∈ (l.dropWhile p).head?, p c = false := by
  induction l with
  | nil => simp
  | cons a t ih =>
    by_cases h : p a
    · simpa [List.dropWhile_cons, h] using ih
    · simp [List.dropWhile_cons, h]

theorem getLast_dropWhile_eq (p : Char → Bool) (x : List Char)
    (h : x.dropWhile p ≠ []) : (x.dropWhile p).getLast? = x.getLast? := by
  induction x with
  | nil => simp at h
  | cons a t ih =>
    by_cases hp : p a
    · rw [List.dropWhile_cons, if_pos hp] at h ⊢
      have ht : t ≠ [] := by
        intro he
        exact h (by simp [he])
      cases t with
      | nil => exact absurd rfl ht
      | cons b t2 => rw [ih h, List.getLast?_cons_cons]
    · rw [List.dropWhile_cons, if_neg hp]

theorem mem_goTrim {p : Char → Bool} {c : Char} {l : List Char}
    (h : c ∈ ((l.dropWhile p).reverse.dropWhile p).reverse) : c ∈ l := by
  rw [List.mem_reverse] at h
  have h2 := (List.dropWhile_sublist (l := (l.dropWhile p).reverse) p).subset h
  rw [List.mem_reverse] at h2
  exact (List.dropWhile_sublist p).subset h2

theorem goTrim_eq_self {p : Char → Bool} {l : List Char}
    (hh : ∀ c ∈ l.head?, p c = false) (hl : ∀ c ∈ l.getLast?, p c = false) :
    ((l.dropWhile p).reverse.dropWhile p).reverse = l := by
  rw [dropWhile_eq_self_of_head hh]
  rw [dropWhile_eq_self_of_head (by simpa [List.head?_reverse] using hl)]
  exact List.reverse_reverse l

theorem head_goTrim_false (p : Char → Bool) (l : List Char) :
    ∀ c ∈ ((l.dropWhile p).reverse.dropWhile p).reverse.head?, p c = false := by
  intro c hc
  rw [List.head?_reverse] at hc
  by_cases hne : (l.dropWhile p).reverse.dropWhile p = []
  · rw [hne] at hc; simp at hc
  · rw [getLast_dropWhile_eq p _ hne, List.getLast?_reverse] at hc
    exact head_dropWhile_false p _ c hc

theorem getLast_goTrim_false (p : Char → Bool) (l : List Char) :
    ∀ c ∈ ((l.dropWhile p).reverse.dropWhile p).reverse.getLast?, p c = false := by
  intro c hc
  rw [List.getLast?_reverse] at hc
  exact head_dropWhile_false p _ c hc

theorem replaceInvalidRepoChar_idem (c : Char) :
    replaceInvalidRepoChar (replaceInvalidRepoChar c) = replaceInvalidRepoChar c := by
  by_cases h : (c = ' ' || c = '/' || c = '+' || c = '&' || c = '(' || c = ')') = true
  · simp [replaceInvalidRepoChar, h]
  · simp [replaceInvalidRepoChar, h]

theorem replaceInvalidRepoChar_not_space (c : Char)
    (h : replaceInvalidRepoChar c = c) : c ≠ ' ' := by
  intro he
  subst he
  simp [replaceInvalidRepoChar] at h

theorem dropWhile_eq_self_of_all {p : Char → Bool} {l : List Char}
    (h : ∀ c ∈ l, p c = false) : l.dropWhile p = l :=
  dropWhile_eq_self_of_head (fun c hc => h c (List.mem_of_mem_head? hc))

theorem goTrim_eq_self_of_all {p : Char → Bool} {l : List Char}
    (h : ∀ c ∈ l, p c = false) :
    ((l.dropWhile p).reverse.dropWhile p).reverse = l := by
  rw [dropWhile_eq_self_of_all h,
    dropWhile_eq_self_of_all (fun c hc => h c (List.mem_reverse.mp hc)),
    List.reverse_reverse]

theorem mem_normalizeRepoLine {c : Char} {cs : List Char} (h : c ∈ normalizeRepoLine cs) :
    ∃ d, d ∈ cs ∧ c = replaceInvalidRepoChar d := by
  unfold normalizeRepoLine goTrimDash at h
  have h1 : c ∈ (goTrimSpace cs).map replaceInvalidRepoChar := mem_goTrim h
  rw [List.mem_map] at h1
  obtain ⟨d, hd, he⟩ := h1
  unfold goTrimSpace at hd
  exact ⟨d, mem_goTrim hd, he.symm⟩

theorem normalizeRepoLine_mem_fixed {c : Char} {cs : List Char}
    (h : c ∈ normalizeRepoLine cs) : replaceInvalidRepoChar c = c := by
  obtain ⟨d, _, he⟩ := mem_normalizeRepoLine h
  rw [he, replaceInvalidRepoChar_idem]

theorem normalizeRepoLine_head_ne (cs : List Char) :
    (normalizeRepoLine cs).head? ≠ some '-' := by
  intro he
  have hm : '-' ∈ (normalizeRepoLine cs).head? := by rw [he]; rfl
  have := head_goTrim_false (fun c => c = '-')
    ((goTrimSpace cs).map replaceInvalidRepoChar) '-' hm
  simp at this

theorem normalizeRepoLine_getLast_ne (cs : List Char) :
    (normalizeRepoLine cs).getLast? ≠ some '-' := by
  intro he
  have hm : '-' ∈ (normalizeRepoLine cs).getLast? := by rw [he]; rfl
  have := getLast_goTrim_false (fun c => c = '-')
    ((goTrimSpace cs).map replaceInvalidRepoChar) '-' hm
  simp at this

theorem normalizeRepoLine_no_invalid {c : Char} {ds : List Char}
    (h : c ∈ normalizeRepoLine ds) : c ∉ ([' ', '/', '+', '&', '(', ')'] : List Char) := by
  intro hmem
  have hfix := normalizeRepoLine_mem_fixed h
  simp only [List.mem_cons, List.not_mem_nil, or_false] at hmem
  rcases hmem with h1 | h1 | h1 | h1 | h1 | h1 <;> subst h1 <;> revert hfix <;> decide

theorem normalizeRepoLine_no_space {cs : List Char}
    (H : ∀ c ∈ cs, goIsSpace c = true → c = ' ') :
    ∀ c ∈ normalizeRepoLine cs, goIsSpace c = false := by
  intro c hc
  obtain ⟨d, hd, he⟩ := mem_normalizeRepoLine hc
  by_cases h6 : (d = ' ' || d = '/' || d = '+' || d = '&' || d = '(' || d = ')') = true
  · rw [he]
    unfold replaceInvalidRepoChar
    rw [if_pos h6]
    decide
  · rw [he]
    unfold replaceInvalidRepoChar
    rw [if_neg h6]
    by_cases hg : goIsSpace d = true
    · have := H d hd hg
      subst this
      simp at h6
    · simpa using hg

theorem normalizeRepoLine_idem {cs : List Char}
    (H : ∀ c ∈ cs, goIsSpace c = true → c = ' ') :
    normalizeRepoLine (normalizeRepoLine cs) = normalizeRepoLine cs := by
  have hns : ∀ c ∈ normalizeRepoLine cs, goIsSpace c = false :=
    normalizeRepoLine_no_space H
  have h1 : goTrimSpace (normalizeRepoLine cs) = normalizeRepoLine cs := by
    unfold goTrimSpace
    exact goTrim_eq_self_of_all hns
  have hfix : ∀ c ∈ normalizeRepoLine cs, replaceInvalidRepoChar c = c :=
    fun c hc => normalizeRepoLine_mem_fixed hc
  have h2 : (normalizeRepoLine cs).map replaceInvalidRepoChar = normalizeRepoLine cs := by
    calc (normalizeRepoLine cs).map replaceInvalidRepoChar
        = (normalizeRepoLine cs).map id := List.map_congr_left hfix
      _ = normalizeRepoLine cs := List.map_id _
  have h3 : goTrimDash (normalizeRepoLine cs) = normalizeRepoLine cs := by
    unfold goTrimDash
    apply goTrim_eq_self
    · intro a ha
      have h4 := normalizeRepoLine_head_ne cs
      rw [Option.mem_def] at ha
      have hne : a ≠ '-' := fun he => h4 (he ▸ ha)
      simpa using hne
    · intro a ha
      have h4 := normalizeRepoLine_getLast_ne cs
      rw [Option.mem_def] at ha
      have hne : a ≠ '-' := fun he => h4 (he ▸ ha)
      simpa using hne
  calc normalizeRepoLine (normalizeRepoLine cs)
      = goTrimDash ((goTrimSpace (normalizeRepoLine cs)).map replaceInvalidRepoChar) := rfl
    _ = goTrimDash ((normalizeRepoLine cs).map replaceInvalidRepoChar) := by rw [h1]
    _ = goTrimDash (normalizeRepoLine cs) := by rw [h2]
    _ = normalizeRepoLine cs := h3

/-- Claim C2 as stated is false: the line `"-\ta"` is kept by `parseRepos`
and normalizes to `"\ta"`, which still contains a tab — a character outside
the destination platform's allowed set — and which is not a fixed point:
normalizing it again yields `"a"`. -/
theorem C2_counterexample :
    parseReposLines ["-\ta".data] = ["\ta".data] ∧
    parseReposLines ["\ta".data] = ["a".data] ∧
    "\ta".data ≠ "a".data ∧
    ('\t' ∈ "\ta".data ∧ specAllowedDestChar '\t' = false) := by
  refine ⟨?_, ?_, ?_, ?_, ?_⟩ <;> decide

/-- Claim C2 (amended): the normalization of `parseRepos` is idempotent on
every line whose whitespace characters are all plain spaces (in general a
normalized identifier can retain non-space whitespace exposed at an edge by
the final dash-trim, and renormalizing then changes it); for every input line
the result has no leading or trailing `-` and contains none of the six
replaced characters space, `/`, `+`, `&`, `(`, `)` (characters outside the
destination's allowed set other than these six are preserved, not replaced);
a line that is blank after trimming, or starts with `#`, is dropped, and
every other line is kept in normalized form. -/
theorem C2_parseRepos_normalization (cs line : List Char) (rest : List (List Char))
    (H : ∀ c ∈ cs, goIsSpace c = true → c = ' ') :
    (normalizeRepoLine (normalizeRepoLine cs) = normalizeRepoLine cs) ∧
    (∀ ds : List Char,
      (normalizeRepoLine ds).head? ≠ some '-' ∧
      (normalizeRepoLine ds).getLast? ≠ some '-' ∧
      ∀ c ∈ normalizeRepoLine ds, c ∉ ([' ', '/', '+', '&', '(', ')'] : List Char)) ∧
    ((goTrimSpace line).isEmpty = true ∨ (goTrimSpace line).head? = some '#' →
      parseReposLines (line :: rest) = parseReposLines rest) ∧
    ((goTrimSpace line).isEmpty = false → (goTrimSpace line).head? ≠ some '#' →
      parseReposLines (line :: rest) = normalizeRepoLine line :: parseReposLines rest) := by
  refine ⟨normalizeRepoLine_idem H, ?_, ?_, ?_⟩
  · intro ds
    exact ⟨normalizeRepoLine_head_ne ds, normalizeRepoLine_getLast_ne ds,
      fun c hc => normalizeRepoLine_no_invalid hc⟩
  · intro hc
    unfold parseReposLines
    rw [List.filterMap_cons]
    rcases hc with hc | hc
    · simp [hc]
    · have hne : (goTrimSpace line).isEmpty = false := by
        cases h : goTrimSpace line with
        | nil => rw [h] at hc; simp at hc
        | cons a t => simp [List.isEmpty]
      simp [hne, hc]
  · intro h1 h2
    unfold parseReposLines
    rw [List.filterMap_cons]
    simp only [h1, h2]
    simp [h1, h2, normalizeRepoLine]

/-- Witness for the amended C2 theorem at concrete inputs: `"repo(4)"`
normalizes idempotently, and a commented-out line is dropped. -/
theorem C2_parseRepos_normalization_witness :
    normalizeRepoLine (normalizeRepoLine "repo(4)".data) = normalizeRepoLine "repo(4)".data ∧
    parseReposLines ["	#commented out repo".data] = parseReposLines [] :=
  ⟨(C2_parseRepos_normalization "repo(4)".data "	#commented out repo".data [] (by decide)).1,
   (C2_parseRepos_normalization "repo(4)".data "	#commented out repo".data []
     (by decide)).2.2.1 (by decide)⟩

/-- Claim C10: `updateCustomProperties` discards the error result of the
custom-property update call: its behaviour is identical for every value of
that call's result, and it never aborts the run. -/
theorem C10_custom_props_error_discarded (e1 e2 : Option String) (org : String)
    (gr : GhRepo) (dr : Bool) (pn : String) :
    updateCustomProperties e1 org gr dr pn = updateCustomProperties e2 org gr dr pn ∧
    (updateCustomProperties e1 org gr dr pn).2 = .ok () := by
  constructor
  · rfl
  · unfold updateCustomProperties
    split
    · rfl
    · split
      · rfl
      · rfl

/-- Claim C7: an entry whose top-level `type` field is `"error"` makes the
adapter fail with a decode error carrying the backend's embedded message, and
never yields a record. -/
theorem C7_error_entry (prMap efs : List (String × JValue)) (msg : String)
    (hty : prMap.lookup "type" = some (.jstr "error"))
    (herr : prMap.lookup "error" = some (.jobj efs))
    (hmsg : efs.lookup "message" = some (.jstr msg)) :
    decodePullRequest (.jobj prMap) = .err msg := by
  simp only [decodePullRequest]
  rw [hty]
  simp [JValue.isStrEq, DecodeError, herr, hmsg, msString]

/-- Witness for C7 at a concrete error-shaped entry. -/
theorem C7_error_entry_witness :
    decodePullRequest (.jobj
      [("type", JValue.jstr "error"),
       ("error", JValue.jobj [("message", JValue.jstr "Repo not found")])]) =
      .err "Repo not found" :=
  C7_error_entry _ _ _ rfl rfl rfl

theorem seqE_ok {α β : Type} {x : StageRes α} {f : α → StageRes β} {t : List Effect} {b : β}
    (h : seqE x f = (t, .ok b)) : ∃ a, x.2 = .ok a ∧ (f a).2 = .ok b := by
  obtain ⟨tx, rx⟩ := x
  cases rx with
  | error a => simp [seqE] at h
  | ok v =>
    refine ⟨v, rfl, ?_⟩
    simp only [seqE, Prod.mk.injEq] at h
    exact h.2

theorem createRepoPoll_ok (env : Env) (o s : String) (gr : GhRepo) :
    ∀ (fuel i : Nat) (t : List Effect) (r : GhRepo),
      createRepoPoll env o s gr fuel i = (t, .ok r) → r = gr := by
  intro fuel
  induction fuel with
  | zero =>
    intro i t r hE
    simp [createRepoPoll] at hE
  | succ n ih =>
    intro i t r hE
    unfold createRepoPoll at hE
    by_cases hg : env.ghGetOk s i
    · rw [if_pos hg] at hE
      simp only [Prod.mk.injEq, Except.ok.injEq] at hE
      exact hE.2.symm
    · rw [if_neg hg] at hE
      rcases hrec : createRepoPoll env o s gr n (i + 1) with ⟨t2, r2⟩
      rw [hrec] at hE
      simp only [Prod.mk.injEq] at hE
      have h2 : r2 = Except.ok r := hE.2
      exact ih (i + 1) t2 r (by rw [hrec, h2])

theorem createRepo_ok_val {env : Env} {repo : BbRepository} {config : Settings}
    {t : List Effect} {r : GhRepo} (hE : createRepo env repo config = (t, .ok r)) :
    r = buildGhRepo repo config := by
  unfold createRepo at hE
  by_cases hd : config.dryRun
  · rw [if_pos hd] at hE
    simp only [Prod.mk.injEq, Except.ok.injEq] at hE
    exact hE.2.symm
  · rw [if_neg hd] at hE
    obtain ⟨a, _, hf⟩ := seqE_ok hE
    rcases hrec : createRepoPoll env config.ghOwner repo.Slug (buildGhRepo repo config) 20 0
      with ⟨t2, r2⟩
    rw [hrec] at hf
    exact createRepoPoll_ok env config.ghOwner repo.Slug (buildGhRepo repo config)
      20 0 t2 r (by rw [hrec]; exact congrArg (Prod.mk t2) hf)

/-- Claim C5: for every source repository and configuration, the destination
descriptor returned by `createRepo` has the configured private-visibility
value as its visibility when the source is private, and `"public"`
otherwise. -/
theorem C5_visibility (env : Env) (repo : BbRepository) (config : Settings)
    (t : List Effect) (r : GhRepo) (hE : createRepo env repo config = (t, .ok r)) :
    r.Visibility = if repo.Is_private then config.visibility else "public" := by
  rw [createRepo_ok_val hE]
  rfl

/-- Witness for C5: a private repository under a dry-run configuration with
private visibility `"internal"`. -/
theorem C5_visibility_witness :
    (buildGhRepo { Is_private := true } { dryRun := true, visibility := "internal" }).Visibility =
      if ({ Is_private := true } : BbRepository).Is_private then
        ({ dryRun := true, visibility := "internal" } : Settings).visibility
      else "public" :=
  C5_visibility defEnv { Is_private := true } { dryRun := true, visibility := "internal" }
    [] _ rfl

/-- Claim C9: the destination descriptor built by `createRepo` always carries
exactly the fixed migration marker topic together with the source project
name lower-cased with every space replaced by `-`. -/
theorem C9_topics (env : Env) (repo : BbRepository) (config : Settings)
    (t : List Effect) (r : GhRepo) (hE : createRepo env repo config = (t, .ok r)) :
    r.Topics = ["migratedFromBitbucket",
      String.mk ((repo.Project.Name.data.map Char.toLower).map
        (fun c => if c = ' ' then '-' else c))] := by
  rw [createRepo_ok_val hE]
  rfl

/-- Witness for C9: the project name `"My Project"` yields the topic
`"my-project"` next to the marker. -/
theorem C9_topics_witness :
    (buildGhRepo { Project := { Name := "My Project" } } { dryRun := true }).Topics =
      ["migratedFromBitbucket",
       String.mk (("My Project".data.map Char.toLower).map
         (fun c => if c = ' ' then '-' else c))] :=
  C9_topics defEnv { Project := { Name := "My Project" } } { dryRun := true } [] _ rfl

/-- Claim C6: whenever `getPrs` succeeds, the record sequence it returns (the
one fed to both migration passes) is sorted in non-decreasing numeric id. -/
theorem C6_prs_sorted (env : Env) (owner repo branch : String) (t : List Effect)
    (prs : PullRequests) (hE : getPrs env owner repo branch = (t, .ok prs)) :
    List.Sorted (fun i j => i.ID ≤ j.ID) prs.Values := by
  unfold getPrs at hE
  rcases hge : env.prsGetsErr repo with _ | e
  · rw [hge] at hE
    rcases hdec : decodePullRequests (env.prsResponse repo) with p0 | m | m
    · rw [hdec] at hE
      simp only [Prod.mk.injEq, Except.ok.injEq] at hE
      rw [← hE.2]
      exact List.sorted_insertionSort _ _
    · rw [hdec] at hE
      simp at hE
    · rw [hdec] at hE
      simp at hE
  · rw [hge] at hE
    simp at hE

/-- Witness for C6: the default environment returns an empty, trivially
sorted record page. -/
theorem C6_prs_sorted_witness :
    getPrs defEnv "w" "r" "main" =
      ([Effect.bbGetPrs "w" "r" "main"], .ok ({ Values := [] } : PullRequests)) ∧
    List.Sorted (fun (i j : PullRequest) => i.ID ≤ j.ID)
      ({ Values := [] } : PullRequests).Values :=
  ⟨rfl, C6_prs_sorted defEnv "w" "r" "main" _ _ rfl⟩

/-- Claim C4: in the open-PR pass (dry run off), an OPEN record whose
destination-PR creation fails with a skippable condition (already-exists
message or the branch-gone validation signature) is logged and skipped, the
loop continuing with the remaining records exactly as if it had started
there; any other creation failure aborts the whole run at that record. -/
theorem C4_open_pr_skippable (env : Env) (o : String) (gr : GhRepo) (pr : PullRequest)
    (rest : List PullRequest) (a : String) (bm : List (String × JValue)) (b e : String)
    (hs : pr.State = "OPEN")
    (hA : pr.Author.lookup "display_name" = some (.jstr a))
    (hB : pr.Source.lookup "branch" = some (.jobj bm))
    (hN : bm.lookup "name" = some (.jstr b))
    (he : env.prCreateResult pr.ID = .error e) :
    (prCreateSkippable e = true →
      migrateOpenPrsLoop env o gr false (pr :: rest) =
        (Effect.ghCreatePR pr.ID :: (migrateOpenPrsLoop env o gr false rest).1,
         (migrateOpenPrsLoop env o gr false rest).2)) ∧
    (prCreateSkippable e = false →
      migrateOpenPrsLoop env o gr false (pr :: rest) =
        ([Effect.ghCreatePR pr.ID],
         .error (.fatal ("failed to create PR " ++ toString pr.ID ++ ", error: " ++ e)))) := by
  have hbody : migrateOpenPrsLoop env o gr false (pr :: rest) =
      if goContains e "A pull request already exists" then
        (Effect.ghCreatePR pr.ID :: (migrateOpenPrsLoop env o gr false rest).1,
         (migrateOpenPrsLoop env o gr false rest).2)
      else if goContains e "422 Validation Failed [\x7bResource:PullRequest Field:head Code:invalid Message:\x7d]" then
        (Effect.ghCreatePR pr.ID :: (migrateOpenPrsLoop env o gr false rest).1,
         (migrateOpenPrsLoop env o gr false rest).2)
      else
        ([Effect.ghCreatePR pr.ID],
         .error (.fatal ("failed to create PR " ++ toString pr.ID ++ ", error: " ++ e))) := by
    simp only [migrateOpenPrsLoop, hs, ne_eq, not_true_eq_false, if_false, hA, hB, hN,
      goAssertString, goAssertObj, he]
    rfl
  constructor
  · intro hsk
    rw [hbody]
    rcases Bool.or_eq_true_iff.mp (by simpa [prCreateSkippable] using hsk) with h1 | h1
    · rw [if_pos h1]
    · by_cases h2 : goContains e "A pull request already exists"
      · rw [if_pos h2]
      · rw [if_neg h2, if_pos h1]
  · intro hsk
    have h12 := Bool.or_eq_false_iff.mp (by simpa [prCreateSkippable] using hsk)
    rw [hbody, if_neg (by simp [h12.1]), if_neg (by simp [h12.2])]

/-- Witness for C4: under `envSkip` every creation fails with the
already-exists message, and the one-record open-PR pass completes without
aborting. -/
theorem C4_open_pr_skippable_witness :
    prCreateSkippable "A pull request already exists" = true ∧
    migrateOpenPrsLoop envSkip "o" {} false
        [{ ID := 1, State := "OPEN", Author := [("display_name", JValue.jstr "alice")],
           Source := [("branch", JValue.jobj [("name", JValue.jstr "feat")])] }] =
      ([Effect.ghCreatePR 1], .ok ()) :=
  ⟨rfl,
   (C4_open_pr_skippable envSkip "o" {}
     { ID := 1, State := "OPEN", Author := [("display_name", JValue.jstr "alice")],
       Source := [("branch", JValue.jobj [("name", JValue.jstr "feat")])] }
     [] "alice" [("name", JValue.jstr "feat")] "feat" "A pull request already exists"
     rfl rfl rfl rfl rfl).1 rfl⟩

/-- Claim C8 as stated is false: with the dry-run flag set, the very first
iteration of the open-PR pass does not return when its record fails the state
filter.  With a MERGED first record the one-record pass completes normally,
and appending a second OPEN record (with a missing author key) changes the
outcome to a panic raised while processing that second record — so the pass
went past its first iteration. -/
theorem C8_counterexample :
    migrateOpenPrsLoop defEnv "o" {} true [{ ID := 1, State := "MERGED" }] = ([], .ok ()) ∧
    migrateOpenPrsLoop defEnv "o" {} true
        [{ ID := 1, State := "MERGED" }, { ID := 2, State := "OPEN" }] =
      ([], .error (.panicked "interface conversion: interface is not string")) :=
  ⟨rfl, rfl⟩

/-- Claim C8 (amended): with the dry-run flag set, each pass returns
immediately at the first record that passes its state filter (OPEN for the
open-PR pass, MERGED for the merged-PR pass) once that record's author and
branch fields have been read, skipping every later record; a record that
fails the filter is passed over and the pass continues with the rest. -/
theorem C8_dry_run_returns_at_first_match (env : Env) (o : String) (gr : GhRepo)
    (pr : PullRequest) (rest : List PullRequest) (a : String)
    (bm : List (String × JValue)) (b mb : String) :
    (pr.State = "OPEN" →
      pr.Author.lookup "display_name" = some (.jstr a) →
      pr.Source.lookup "branch" = some (.jobj bm) →
      bm.lookup "name" = some (.jstr b) →
      migrateOpenPrsLoop env o gr true (pr :: rest) = ([], .ok ())) ∧
    (pr.State ≠ "OPEN" →
      migrateOpenPrsLoop env o gr true (pr :: rest) = migrateOpenPrsLoop env o gr true rest) ∧
    (pr.State = "MERGED" →
      pr.Author.lookup "display_name" = some (.jstr a) →
      pr.Source.lookup "branch" = some (.jobj bm) →
      bm.lookup "name" = some (.jstr b) →
      pr.ClosedBy.lookup "display_name" = some (.jstr mb) →
      createClosedPrsLoop env o gr true (pr :: rest) = ([], .ok ())) ∧
    (pr.State ≠ "MERGED" →
      createClosedPrsLoop env o gr true (pr :: rest) = createClosedPrsLoop env o gr true rest) := by
  refine ⟨?_, ?_, ?_, ?_⟩
  · intro hs hA hB hN
    simp only [migrateOpenPrsLoop, hs, ne_eq, not_true_eq_false, if_false, hA, hB, hN,
      goAssertString, goAssertObj]
    rfl
  · intro hs
    simp only [migrateOpenPrsLoop, ne_eq, hs, not_false_eq_true, if_true]
  · intro hs hA hB hN hC
    simp only [createClosedPrsLoop, hs, ne_eq, not_true_eq_false, if_false, hA, hB, hN, hC,
      goAssertString, goAssertObj]
    rfl
  · intro hs
    simp only [createClosedPrsLoop, ne_eq, hs, not_false_eq_true, if_true]

/-- Witness for the amended C8 theorem: a dry-run open-PR pass returns at its
first OPEN record, never touching the second record (whose missing author key
would panic if it were processed). -/
theorem C8_dry_run_returns_at_first_match_witness :
    migrateOpenPrsLoop defEnv "o" {} true
        [{ ID := 1, State := "OPEN", Author := [("display_name", JValue.jstr "alice")],
           Source := [("branch", JValue.jobj [("name", JValue.jstr "feat")])] },
         { ID := 2, State := "OPEN" }] = ([], .ok ()) :=
  (C8_dry_run_returns_at_first_match defEnv "o" {}
    { ID := 1, State := "OPEN", Author := [("display_name", JValue.jstr "alice")],
      Source := [("branch", JValue.jobj [("name", JValue.jstr "feat")])] }
    [{ ID := 2, State := "OPEN" }] "alice" [("name", JValue.jstr "feat")] "feat" "x").1
    rfl rfl rfl rfl

/-- Claim C3 as stated is false: `prEntryC3` — a record whose author mapping
lacks the `display_name` key — decodes successfully into `prRecC3` (no
decode-time error, the partial map is silently kept), and the missing key
then crashes the open-PR pass at use time with a failed type assertion. -/
theorem C3_counterexample :
    decodePullRequest prEntryC3 = .ok prRecC3 ∧
    migrateOpenPrsLoop defEnv "o" {} false [prRecC3] =
      ([], .error (.panicked "interface conversion: interface is not string")) :=
  ⟨rfl, rfl⟩

/-- Claim C3 (amended): decoding fails with the error `"not a valid format"`
when the top-level PR-list shape is not a mapping; but a record whose author
mapping lacks `display_name` (or whose source-branch mapping lacks the nested
keys) is not a decode-time failure: it decodes successfully with the partial
mapping kept, and the absent key surfaces as a use-time runtime panic in the
migration pass that reads it. -/
theorem C3_decode_shape_errors :
    (∀ v : JValue, v.isObj = false → decodePullRequests v = .err "not a valid format") ∧
    GoRes.isOk (decodePullRequest prEntryC3) = true ∧
    (migrateOpenPrsLoop defEnv "o" {} false [prRecC3]).2 =
      .error (.panicked "interface conversion: interface is not string") := by
  refine ⟨?_, rfl, rfl⟩
  intro v hv
  cases v <;> simp [JValue.isObj] at hv ⊢ <;> rfl

/-- Witness for the amended C3 theorem: a string-shaped top-level response
fails with the shape error. -/
theorem C3_decode_shape_errors_witness :
    decodePullRequests (JValue.jstr "x") = .err "not a valid format" :=
  C3_decode_shape_errors.1 (JValue.jstr "x") rfl

/-! ### Dry-run trace lemmas for C1 -/

theorem seqE_filter_nil {α β : Type} (p : Effect → Bool) (x : StageRes α)
    (f : α → StageRes β) (hx : x.1.filter p = []) (hf : ∀ v, (f v).1.filter p = []) :
    (seqE x f).1.filter p = [] := by
  obtain ⟨t, r⟩ := x
  cases r with
  | error a => exact hx
  | ok v =>
    show (t ++ (f v).1).filter p = []
    rw [List.filter_append, hx, hf v]
    rfl

theorem updatePermissions_dry_no_mut (env : Env) (o r : String) :
    (updatePermissionsToReadOnly env o r true).1.filter Effect.isMutating = [] := by
  unfold updatePermissionsToReadOnly
  apply seqE_filter_nil
  · cases env.listUserPermsErr r <;> rfl
  · intro v
    apply seqE_filter_nil
    · cases env.listGroupPermsErr r <;> rfl
    · intro w
      rfl

theorem createRepo_dry (env : Env) (repo : BbRepository) (config : Settings)
    (h : config.dryRun = true) :
    createRepo env repo config = ([], .ok (buildGhRepo repo config)) := by
  unfold createRepo
  rw [h]
  rfl

theorem pushRepo_dry_no_mut (env : Env) (f r : String) (config : Settings)
    (h : config.dryRun = true) :
    (pushRepoToGithub env f r config).1.filter Effect.isMutating = [] := by
  unfold pushRepoToGithub
  rw [h]
  apply seqE_filter_nil
  · cases env.remoteAddErr r <;> rfl
  · intro v
    apply seqE_filter_nil
    · by_cases hp : config.runProgram ≠ "noop"
      · rw [if_pos hp]
        cases env.runProgErr f <;> rfl
      · rw [if_neg hp]
        rfl
    · intro w
      rfl

theorem updateCustomProperties_dry_trace (ce : Option String) (org : String) (gr : GhRepo)
    (pn : String) : (updateCustomProperties ce org gr true pn).1 = [] := by
  unfold updateCustomProperties
  split
  · rfl
  · rfl

theorem migrateOpenPrsLoop_dry_trace (env : Env) (o : String) (gr : GhRepo)
    (l : List PullRequest) : (migrateOpenPrsLoop env o gr true l).1 = [] := by
  induction l with
  | nil => rfl
  | cons pr rest ih =>
    unfold migrateOpenPrsLoop
    by_cases hs : pr.State ≠ "OPEN"
    · rw [if_pos hs]
      exact ih
    · rw [if_neg hs]
      split
      · rfl
      · split
        · rfl
        · split
          · rfl
          · rfl

theorem createClosedPrsLoop_dry_trace (env : Env) (o : String) (gr : GhRepo)
    (l : List PullRequest) : (createClosedPrsLoop env o gr true l).1 = [] := by
  induction l with
  | nil => rfl
  | cons pr rest ih =>
    unfold createClosedPrsLoop
    by_cases hs : pr.State ≠ "MERGED"
    · rw [if_pos hs]
      exact ih
    · rw [if_neg hs]
      split
      · rfl
      · split
        · rfl
        · split
          · rfl
          · split
            · rfl
            · rfl


theorem migrateRepo_dry_no_mut (env : Env) (r : String) (config : Settings)
    (h : config.dryRun = true) :
    (migrateRepo env r config).1.filter Effect.isMutating = [] := by
  unfold migrateRepo
  rw [h]
  apply seqE_filter_nil
  · rfl
  · intro bbRepo
    apply seqE_filter_nil
    · by_cases hr : config.revokeOldPerms
      · rw [if_pos hr]
        exact updatePermissions_dry_no_mut env config.bbWorkspace r
      · rw [if_neg hr]
        rfl
    · intro u1
      apply seqE_filter_nil
      · by_cases hc : config.migrateRepoContents
        · rw [if_pos hc]
          rfl
        · rw [if_neg hc]
          rfl
      · intro repoFolder
        apply seqE_filter_nil
        · by_cases hp : config.migrateOpenPrs || config.migrateClosedPrs
          · rw [if_pos hp]
            rfl
          · rw [if_neg hp]
            rfl
        · intro prs
          apply seqE_filter_nil
          · rw [createRepo_dry env bbRepo config h]
            rfl
          · intro ghRepo
            apply seqE_filter_nil
            · by_cases hc2 : config.migrateRepoContents
              · rw [if_pos hc2]
                exact pushRepo_dry_no_mut env repoFolder r config h
              · rw [if_neg hc2]
                rfl
            · intro u2
              apply seqE_filter_nil
              · by_cases hset : config.migrateRepoSettings
                · rw [if_pos hset]
                  apply seqE_filter_nil
                  · rfl
                  · intro u3
                    apply seqE_filter_nil
                    · rfl
                    · intro u4
                      rw [updateCustomProperties_dry_trace]
                      rfl
                · rw [if_neg hset]
                  rfl
              · intro u5
                apply seqE_filter_nil
                · by_cases ho : config.migrateOpenPrs
                  · rw [if_pos ho]
                    unfold migrateOpenPrs
                    rw [migrateOpenPrsLoop_dry_trace]
                    rfl
                  · rw [if_neg ho]
                    rfl
                · intro u6
                  by_cases hcl : config.migrateClosedPrs
                  · rw [if_pos hcl]
                    unfold createClosedPrs
                    rw [createClosedPrsLoop_dry_trace]
                    rfl
                  · rw [if_neg hcl]
                    rfl

/-- Claim C1: with the dry-run flag set, the whole run — every stage of every
repository in the list — performs no mutating call to either backend or to
the destination git remote: no repository creation, settings, topics or
custom-property update, no permission write, no content push, and no PR,
issue or comment creation appears in the trace. -/
theorem C1_dry_run_no_mutating_calls (env : Env) (repoList : List String) (config : Settings)
    (h : config.dryRun = true) :
    (migrateRepos env repoList config).1.filter Effect.isMutating = [] := by
  induction repoList with
  | nil => rfl
  | cons r rest ih =>
    exact seqE_filter_nil _ _ _ (migrateRepo_dry_no_mut env r config h) (fun _ => ih)

/-- Witness for C1: a concrete dry-run over one repository with every stage
enabled produces a mutation-free trace. -/
theorem C1_dry_run_no_mutating_calls_witness :
    ({ dryRun := true, revokeOldPerms := true, migrateRepoContents := true,
       migrateRepoSettings := true, migrateOpenPrs := true, migrateClosedPrs := true,
       ghOrg := "org", ghOwner := "org", bbWorkspace := "ws" } : Settings).dryRun = true ∧
    (migrateRepos defEnv ["repo1"]
      { dryRun := true, revokeOldPerms := true, migrateRepoContents := true,
        migrateRepoSettings := true, migrateOpenPrs := true, migrateClosedPrs := true,
        ghOrg := "org", ghOwner := "org", bbWorkspace := "ws" }).1.filter Effect.isMutating
      = [] :=
  ⟨rfl,
   C1_dry_run_no_mutating_calls defEnv ["repo1"]
     { dryRun := true, revokeOldPerms := true, migrateRepoContents := true,
       migrateRepoSettings := true, migrateOpenPrs := true, migrateClosedPrs := true,
       ghOrg := "org", ghOwner := "org", bbWorkspace := "ws" } rfl⟩

/-- The repository's own `TestParseRepos` vector, reproduced on the embedded
line cleaner: the six lines of the test file yield exactly the four expected
cleaned names. -/
theorem parseRepos_test_vector :
    parseReposLines
      [" repo1 ".data, "	".data, "	repo2".data, "	repo/With+Invalid&Chars".data,
       "	#commented out repo".data, "	repo(4)".data, "	".data] =
      ["repo1".data, "repo2".data, "repo-With-Invalid-Chars".data, "repo-4".data] := by
  decide
